import Mathlib

/-!
Shallow embedding of the ADF4351 frequency-synthesizer driver
(src/ADF4351.cpp, src/ADF4351.h).

Doubles are modelled as exact rationals (ℚ); the C library function
`round` (round half away from zero) is modelled by `cround`; a C++
conversion of a nonnegative floating value to `uint16_t` is modelled as
truncation to an integer followed by wraparound modulo 2^16 (`toUInt16`);
`uint16_t` / `uint32_t` arithmetic wraps modulo 2^16 / 2^32.  The SPI
sink (`writeRegister`) is modelled by collecting the 32-bit words passed
to it, in call order, into a list.
-/

/-- Round half away from zero, as the C `round` function. -/
def cround (x : ℚ) : ℤ :=
  if 0 ≤ x then ⌊x + 1/2⌋ else ⌈x - 1/2⌉

/-- Conversion of an integer value to `uint16_t` (wraparound model). -/
def toUInt16 (z : ℤ) : ℕ := z.toNat % 65536

/-- Truncation of a `uint32_t` intermediate (shifts in the register
packing) to 32 bits. -/
def toUInt32 (n : ℕ) : ℕ := n % 4294967296

/-- Private state of the `ADF4351` class (src/ADF4351.h lines 85-98). -/
structure ADF4351 where
  lePin : ℕ
  refFreqMHz : ℚ
  outputFreqMHz : ℚ
  pfdFreqMHz : ℚ
  rCounter : ℕ
  refDoubler : ℕ
  refDiv2 : ℕ
  outputPower : ℕ
  rfOutputEnable : ℕ
  chargePumpCurr : ℕ
  deriving DecidableEq

/-- Constructor `ADF4351::ADF4351(uint8_t lePin)` (src/ADF4351.cpp lines 10-21). -/
def mkADF4351 (lePin : ℕ) : ADF4351 :=
  { lePin := lePin
    refFreqMHz := 25
    outputFreqMHz := 0
    pfdFreqMHz := 25
    rCounter := 1
    refDoubler := 0
    refDiv2 := 0
    outputPower := 3
    rfOutputEnable := 1
    chargePumpCurr := 7 }

/-- `ADF4351::setReference` (src/ADF4351.cpp lines 39-47): stores the
reference parameters and recomputes the PFD frequency. -/
def setReference (s : ADF4351) (refFreqMHz : ℚ) (rCounter refDoubler refDiv2 : ℕ) : ADF4351 :=
  { s with
    refFreqMHz := refFreqMHz
    rCounter := rCounter
    refDoubler := refDoubler
    refDiv2 := refDiv2
    pfdFreqMHz := refFreqMHz * (1 + (refDoubler : ℚ)) / ((rCounter : ℚ) * (1 + (refDiv2 : ℚ))) }

/-- `ADF4351::setOutputPower` (src/ADF4351.cpp lines 59-62). -/
def setOutputPower (s : ADF4351) (power : ℕ) : ADF4351 :=
  { s with outputPower := if 3 < power then 3 else power }

/-- `ADF4351::enableOutput` (src/ADF4351.cpp lines 64-66). -/
def enableOutput (s : ADF4351) (enable : Bool) : ADF4351 :=
  { s with rfOutputEnable := if enable then 1 else 0 }

/-- `ADF4351::setChargePumpCurrent` (src/ADF4351.cpp lines 68-71). -/
def setChargePumpCurrent (s : ADF4351) (current : ℕ) : ADF4351 :=
  { s with chargePumpCurr := if 15 < current then 15 else current }

/-- `ADF4351::getFrequency` (src/ADF4351.cpp lines 73-75). -/
def getFrequency (s : ADF4351) : ℚ := s.outputFreqMHz

/-- `ADF4351::getPFDFrequency` (src/ADF4351.cpp lines 77-79). -/
def getPFDFrequency (s : ADF4351) : ℚ := s.pfdFreqMHz

/-- `ADF4351::selectOutputDivider` (src/ADF4351.cpp lines 91-117):
returns the pair (outDivider, outRFdivSel) set through the two
by-reference output parameters. -/
def selectOutputDivider (freqMHz : ℚ) : ℚ × ℕ :=
  if 2200 ≤ freqMHz then (1, 0)
  else if 1100 ≤ freqMHz then (2, 1)
  else if 550 ≤ freqMHz then (4, 2)
  else if 275 ≤ freqMHz then (8, 3)
  else if 137.5 ≤ freqMHz then (16, 4)
  else if 68.75 ≤ freqMHz then (32, 5)
  else (64, 6)

/-- The numeric quantities computed by `ADF4351::updateRegisters`
(src/ADF4351.cpp lines 119-159).  `N_frac_pre` records the value of the
local variable `N_frac` before the rounding-carry branch at lines
143-146; `N_int` and `N_frac` are the values after that branch. -/
structure SynthCalc where
  outputDivider : ℚ
  RFdivSel : ℕ
  vcoFreqMHz : ℚ
  N : ℚ
  N_int : ℕ
  MOD : ℕ
  N_frac_pre : ℕ
  N_frac : ℕ
  prescaler : ℕ
  ldp : ℕ
  ldf : ℕ
  feedbackSelect : ℕ
  bandSelDiv : ℕ
  deriving DecidableEq

/-- The PLL ratio `N = vcoFreqMHz / pfdFreqMHz` (src/ADF4351.cpp
lines 126 and 134). -/
def computeN (outputFreqMHz pfdFreqMHz : ℚ) : ℚ :=
  outputFreqMHz * (selectOutputDivider outputFreqMHz).1 / pfdFreqMHz

/-- `uint16_t N_int = (uint16_t)floor(N)` (src/ADF4351.cpp line 135),
before the rounding-carry correction. -/
def nIntRaw (outputFreqMHz pfdFreqMHz : ℚ) : ℕ :=
  toUInt16 ⌊computeN outputFreqMHz pfdFreqMHz⌋

/-- `MOD` as computed at src/ADF4351.cpp lines 138-139: the ratio
`pfd / channelSpacing` rounded, cast to `uint16_t`, then clamped to
at most 4095. -/
def computeMOD (pfdFreqMHz channelSpacingMHz : ℚ) : ℕ :=
  let m := toUInt16 (cround (pfdFreqMHz / channelSpacingMHz))
  if 4095 < m then 4095 else m

/-- `uint16_t N_frac = (uint16_t)round((N - N_int) * MOD)`
(src/ADF4351.cpp line 142), before the rounding-carry correction. -/
def nFracRaw (outputFreqMHz pfdFreqMHz channelSpacingMHz : ℚ) : ℕ :=
  toUInt16 (cround ((computeN outputFreqMHz pfdFreqMHz -
    (nIntRaw outputFreqMHz pfdFreqMHz : ℚ)) * (computeMOD pfdFreqMHz channelSpacingMHz : ℚ)))

/-- The arithmetic part of `ADF4351::updateRegisters` (src/ADF4351.cpp
lines 119-159), as a pure function of the output frequency, the PFD
frequency and the channel spacing.  The rounding-carry branch at lines
143-146 uses `uint16_t` arithmetic, hence the `% 65536` on `N_int`. -/
def synthCalc (outputFreqMHz pfdFreqMHz channelSpacingMHz : ℚ) : SynthCalc :=
  let MOD := computeMOD pfdFreqMHz channelSpacingMHz
  let nFrac0 := nFracRaw outputFreqMHz pfdFreqMHz channelSpacingMHz
  let nInt := if MOD ≤ nFrac0
    then (nIntRaw outputFreqMHz pfdFreqMHz + nFrac0 / MOD) % 65536
    else nIntRaw outputFreqMHz pfdFreqMHz
  let nFrac := if MOD ≤ nFrac0 then nFrac0 % MOD else nFrac0
  { outputDivider := (selectOutputDivider outputFreqMHz).1
    RFdivSel := (selectOutputDivider outputFreqMHz).2
    vcoFreqMHz := outputFreqMHz * (selectOutputDivider outputFreqMHz).1
    N := computeN outputFreqMHz pfdFreqMHz
    N_int := nInt
    MOD := MOD
    N_frac_pre := nFrac0
    N_frac := nFrac
    prescaler := if nInt < 75 then 0 else 1
    ldp := if nFrac = 0 then 1 else 0
    ldf := if nFrac = 0 then 1 else 0
    feedbackSelect := if 1 < (selectOutputDivider outputFreqMHz).1 then 1 else 1
    bandSelDiv := 200 }

/-- Register word R0 (src/ADF4351.cpp lines 162-164). -/
def reg0val (c : SynthCalc) : ℕ :=
  0 ||| toUInt32 (c.N_int <<< 15) ||| toUInt32 (c.N_frac <<< 3)

/-- Register word R1 (src/ADF4351.cpp lines 167-170). -/
def reg1val (c : SynthCalc) : ℕ :=
  1 ||| toUInt32 (c.MOD <<< 3) ||| toUInt32 (1 <<< 15) ||| toUInt32 (c.prescaler <<< 27)

/-- Register word R2 (src/ADF4351.cpp lines 173-186). -/
def reg2val (s : ADF4351) (c : SynthCalc) : ℕ :=
  2 ||| toUInt32 (0 <<< 3) ||| toUInt32 (0 <<< 4) ||| toUInt32 (0 <<< 5) |||
    toUInt32 (1 <<< 6) ||| toUInt32 (c.ldp <<< 7) ||| toUInt32 (c.ldf <<< 8) |||
    toUInt32 (s.chargePumpCurr <<< 9) ||| toUInt32 (0 <<< 13) |||
    toUInt32 (s.rCounter <<< 14) ||| toUInt32 (s.refDiv2 <<< 24) |||
    toUInt32 (s.refDoubler <<< 25) ||| toUInt32 (0 <<< 26) ||| toUInt32 (0 <<< 29)

/-- Register word R3 (src/ADF4351.cpp lines 189-195). -/
def reg3val : ℕ :=
  3 ||| toUInt32 (150 <<< 3) ||| toUInt32 (0 <<< 15) ||| toUInt32 (0 <<< 18) |||
    toUInt32 (0 <<< 21) ||| toUInt32 (0 <<< 22) ||| toUInt32 (0 <<< 23)

/-- Register word R4 (src/ADF4351.cpp lines 198-208). -/
def reg4val (s : ADF4351) (c : SynthCalc) : ℕ :=
  4 ||| toUInt32 ((s.outputPower &&& 3) <<< 3) ||| toUInt32 (s.rfOutputEnable <<< 5) |||
    toUInt32 (0 <<< 6) ||| toUInt32 (0 <<< 8) ||| toUInt32 (0 <<< 9) |||
    toUInt32 (0 <<< 10) ||| toUInt32 (0 <<< 11) |||
    toUInt32 ((c.bandSelDiv &&& 255) <<< 12) ||| toUInt32 ((c.RFdivSel &&& 7) <<< 20) |||
    toUInt32 (c.feedbackSelect <<< 23)

/-- Register word R5 (src/ADF4351.cpp lines 211-214). -/
def reg5val : ℕ :=
  5 ||| toUInt32 (3 <<< 19) ||| toUInt32 (0 <<< 21) ||| toUInt32 (1 <<< 22)

/-- The six register words in the order they are written to the sink
(src/ADF4351.cpp lines 216-222: R5, R4, R3, R2, R1, R0). -/
def buildRegs (s : ADF4351) (c : SynthCalc) : List ℕ :=
  [reg5val, reg4val s c, reg3val, reg2val s c, reg1val c, reg0val c]

/-- `ADF4351::updateRegisters` (src/ADF4351.cpp lines 119-225): returns
the success flag and the list of 32-bit words passed to `writeRegister`,
in call order.  On the VCO-range failure no word is emitted. -/
def updateRegisters (s : ADF4351) (channelSpacingMHz : ℚ) : Bool × List ℕ :=
  let c := synthCalc s.outputFreqMHz s.pfdFreqMHz channelSpacingMHz
  if c.vcoFreqMHz < 2200 ∨ 4400 < c.vcoFreqMHz then (false, [])
  else (true, buildRegs s c)

/-- `ADF4351::setFrequency` (src/ADF4351.cpp lines 49-57): returns the
boolean result, the post-call object state and the list of emitted
register words. -/
def setFrequency (s : ADF4351) (freqMHz channelSpacingMHz : ℚ) : Bool × ADF4351 × List ℕ :=
  if freqMHz < 35 ∨ 4400 < freqMHz then (false, s, [])
  else
    let s2 := { s with outputFreqMHz := freqMHz }
    let r := updateRegisters s2 channelSpacingMHz
    (r.1, s2, r.2)

/-! Projection lemmas for `synthCalc`, all definitional. -/

theorem synthCalc_MOD (f p c : ℚ) : (synthCalc f p c).MOD = computeMOD p c := rfl

theorem synthCalc_N_frac_pre (f p c : ℚ) :
    (synthCalc f p c).N_frac_pre = nFracRaw f p c := rfl

theorem synthCalc_N_frac (f p c : ℚ) :
    (synthCalc f p c).N_frac =
      if computeMOD p c ≤ nFracRaw f p c
      then nFracRaw f p c % computeMOD p c
      else nFracRaw f p c := rfl

theorem synthCalc_vco (f p c : ℚ) :
    (synthCalc f p c).vcoFreqMHz = f * (selectOutputDivider f).1 := rfl

/-! Helper lemmas. -/

/-- The rounding-carry pattern of src/ADF4351.cpp lines 143-146 restores
a value below the modulus whenever the modulus is nonzero. -/
theorem carry_branch_lt (m n : ℕ) (hm : m ≠ 0) : (if m ≤ n then n % m else n) < m := by
  split
  · exact Nat.mod_lt _ (Nat.pos_of_ne_zero hm)
  · omega

/-- For any output frequency in the accepted range, the divider chosen by
`selectOutputDivider` puts the VCO frequency inside [2200, 4400]. -/
theorem vco_bounds (f : ℚ) (h1 : 35 ≤ f) (h2 : f ≤ 4400) :
    2200 ≤ f * (selectOutputDivider f).1 ∧ f * (selectOutputDivider f).1 ≤ 4400 := by
  unfold selectOutputDivider
  split_ifs with h3 h4 h5 h6 h7 h8 <;> push_neg at * <;>
    constructor <;> simp <;> linarith

/-- For an in-range stored output frequency, `updateRegisters` succeeds
and emits the six register words. -/
theorem updateRegisters_true (s : ADF4351) (c : ℚ)
    (h1 : 35 ≤ s.outputFreqMHz) (h2 : s.outputFreqMHz ≤ 4400) :
    updateRegisters s c =
      (true, buildRegs s (synthCalc s.outputFreqMHz s.pfdFreqMHz c)) := by
  obtain ⟨hlo, hhi⟩ := vco_bounds s.outputFreqMHz h1 h2
  simp only [updateRegisters, synthCalc_vco]
  rw [if_neg]
  push_neg
  exact ⟨by linarith, by linarith⟩

/-- Claim C1, amended (the original claim fails when `MOD` rounds to 0):
for every valid SynthesisPlanner input whose computed modulus is nonzero,
the fractional numerator after the rounding-carry correction satisfies
`N_frac < MOD`. -/
theorem C1_nfrac_lt_mod (f p c : ℚ) (hf1 : 35 ≤ f) (hf2 : f ≤ 4400)
    (hp : 0 < p) (hc : 0 < c) (hMOD : (synthCalc f p c).MOD ≠ 0) :
    (synthCalc f p c).N_frac < (synthCalc f p c).MOD := by
  rw [synthCalc_MOD] at hMOD ⊢
  rw [synthCalc_N_frac]
  exact carry_branch_lt _ _ hMOD

/-- Claim C1, counterexample to the original statement: at output
frequency 1000 MHz, PFD 25 MHz and channel spacing 51 MHz (a valid
input), `MOD` rounds to 0, the carry branch executes with divisor 0, and
the resulting `N_frac` is not below `MOD`. -/
theorem C1_counterexample :
    (35 ≤ (1000 : ℚ) ∧ (1000 : ℚ) ≤ 4400 ∧ (0 : ℚ) < 25 ∧ (0 : ℚ) < 51) ∧
    ¬ ((synthCalc 1000 25 51).N_frac < (synthCalc 1000 25 51).MOD) := by
  refine ⟨by norm_num, ?_⟩
  rw [synthCalc_N_frac, synthCalc_MOD]
  norm_num [computeMOD, nFracRaw, nIntRaw, computeN, selectOutputDivider, cround, toUInt16]
    <;> simp <;> norm_num

/-- Claim C1, witness for the amended theorem at a concrete input. -/
theorem C1_witness :
    (synthCalc 1000 25 (1/100)).N_frac < (synthCalc 1000 25 (1/100)).MOD := by
  apply C1_nfrac_lt_mod 1000 25 (1/100) (by norm_num) (by norm_num) (by norm_num)
    (by norm_num)
  rw [synthCalc_MOD]
  norm_num [computeMOD, computeN, selectOutputDivider, cround, toUInt16]
    <;> simp <;> norm_num

/-- Claim C2: whenever `setFrequency` returns false, the stored output
frequency is unchanged (so `getFrequency` still returns its previous
value) and no register word is emitted to the sink. -/
theorem C2_failure_isolation (s : ADF4351) (f c : ℚ)
    (h : (setFrequency s f c).1 = false) :
    getFrequency (setFrequency s f c).2.1 = getFrequency s ∧
    (setFrequency s f c).2.2 = [] := by
  by_cases hf : f < 35 ∨ 4400 < f
  · simp [setFrequency, hf]
  · exfalso
    have hf2 := hf
    push_neg at hf2
    have hu := updateRegisters_true { s with outputFreqMHz := f } c
      (by simpa using hf2.1) (by simpa using hf2.2)
    simp only [setFrequency, if_neg hf] at h
    rw [hu] at h
    simp at h

/-- Claim C2, witness: a failing call just below 35 MHz leaves the
stored frequency and the sink untouched. -/
theorem C2_witness :
    getFrequency (setFrequency (mkADF4351 10) (3499/100) 1).2.1 =
      getFrequency (mkADF4351 10) ∧
    (setFrequency (mkADF4351 10) (3499/100) 1).2.2 = [] :=
  C2_failure_isolation (mkADF4351 10) (3499/100) 1 (by norm_num [setFrequency])

/-- Claim C4: for every requested frequency in [35, 4400] MHz the VCO
frequency lands in [2200, 4400] MHz, so the VCO-range rejection branch
of `updateRegisters` is unreachable and `setFrequency` succeeds. -/
theorem C4_vco_check_unreachable (s : ADF4351) (f c : ℚ)
    (h1 : 35 ≤ f) (h2 : f ≤ 4400) :
    2200 ≤ f * (selectOutputDivider f).1 ∧ f * (selectOutputDivider f).1 ≤ 4400 ∧
    (setFrequency s f c).1 = true := by
  obtain ⟨hlo, hhi⟩ := vco_bounds f h1 h2
  refine ⟨hlo, hhi, ?_⟩
  have hu := updateRegisters_true { s with outputFreqMHz := f } c (by simpa) (by simpa)
  simp only [setFrequency]
  rw [if_neg (by push_neg; exact ⟨h1, h2⟩)]
  simp [hu]

/-- Claim C4, witness at a concrete in-range frequency. -/
theorem C4_witness :
    2200 ≤ (1000 : ℚ) * (selectOutputDivider 1000).1 ∧
    (1000 : ℚ) * (selectOutputDivider 1000).1 ≤ 4400 ∧
    (setFrequency (mkADF4351 10) 1000 1).1 = true :=
  C4_vco_check_unreachable (mkADF4351 10) 1000 1 (by norm_num) (by norm_num)

/-- Claim C8: after a successful `setFrequency f c` with `f` in
[35, 4400] and `c > 0`, `getFrequency` returns exactly `f`. -/
theorem C8_roundtrip (s : ADF4351) (f c : ℚ) (h1 : 35 ≤ f) (h2 : f ≤ 4400)
    (hc : 0 < c) (hok : (setFrequency s f c).1 = true) :
    getFrequency (setFrequency s f c).2.1 = f := by
  simp only [setFrequency]
  rw [if_neg (by push_neg; exact ⟨h1, h2⟩)]
  rfl

/-- Claim C8, witness at a concrete successful call. -/
theorem C8_witness :
    getFrequency (setFrequency (mkADF4351 10) 1000 (1/100)).2.1 = 1000 := by
  apply C8_roundtrip (mkADF4351 10) 1000 (1/100) (by norm_num) (by norm_num) (by norm_num)
  norm_num [setFrequency, updateRegisters, synthCalc_vco, selectOutputDivider, mkADF4351]

/-- Claim C9: `setOutputPower` and `setChargePumpCurrent` never fail;
out-of-range inputs are clamped (power to at most 3, charge-pump current
to at most 15) and the stored setting always lies in the valid range. -/
theorem C9_clamping (s : ADF4351) (p cur : ℕ) :
    (setOutputPower s p).outputPower = min p 3 ∧
    (setOutputPower s p).outputPower ≤ 3 ∧
    (setChargePumpCurrent s cur).chargePumpCurr = min cur 15 ∧
    (setChargePumpCurrent s cur).chargePumpCurr ≤ 15 := by
  unfold setOutputPower setChargePumpCurrent
  refine ⟨?_, ?_, ?_, ?_⟩ <;> simp <;> split <;> omega

/-! Low-bit lemmas for the register words. -/

/-- Taking the low three bits distributes over bitwise or. -/
theorem lor_mod_eight (a b : ℕ) : (a ||| b) % 8 = a % 8 ||| b % 8 := by
  rw [show (8 : ℕ) = 2 ^ 3 by norm_num]
  apply Nat.eq_of_testBit_eq
  intro i
  simp only [Nat.testBit_mod_two_pow, Nat.testBit_lor, Bool.and_or_distrib_left]

/-- A truncated value that is a multiple of eight stays a multiple of
eight. -/
theorem toUInt32_mod_eight_of_dvd (y : ℕ) (h : y % 8 = 0) : toUInt32 y % 8 = 0 := by
  unfold toUInt32
  omega

/-- Any field shifted into bit position three or higher leaves the low
three bits clear. -/
theorem toUInt32_shiftLeft_mod_eight (x n : ℕ) (h : 3 ≤ n) :
    toUInt32 (x <<< n) % 8 = 0 := by
  apply toUInt32_mod_eight_of_dvd
  rw [Nat.shiftLeft_eq]
  obtain ⟨k, hk⟩ : (8 : ℕ) ∣ 2 ^ n := by
    have := pow_dvd_pow 2 h
    simpa using this
  rw [hk, show x * (8 * k) = 8 * (x * k) by ring, Nat.mul_mod_right]

theorem reg0val_mod_eight (c : SynthCalc) : reg0val c % 8 = 0 := by
  simp [reg0val, lor_mod_eight, toUInt32_shiftLeft_mod_eight, toUInt32_mod_eight_of_dvd]

theorem reg1val_mod_eight (c : SynthCalc) : reg1val c % 8 = 1 := by
  simp [reg1val, lor_mod_eight, toUInt32_shiftLeft_mod_eight, toUInt32_mod_eight_of_dvd]

theorem reg2val_mod_eight (s : ADF4351) (c : SynthCalc) : reg2val s c % 8 = 2 := by
  simp [reg2val, lor_mod_eight, toUInt32_shiftLeft_mod_eight, toUInt32_mod_eight_of_dvd]

theorem reg3val_mod_eight : reg3val % 8 = 3 := by
  simp [reg3val, lor_mod_eight, toUInt32_shiftLeft_mod_eight, toUInt32_mod_eight_of_dvd]

theorem reg4val_mod_eight (s : ADF4351) (c : SynthCalc) : reg4val s c % 8 = 4 := by
  simp [reg4val, lor_mod_eight, toUInt32_shiftLeft_mod_eight, toUInt32_mod_eight_of_dvd]

theorem reg5val_mod_eight : reg5val % 8 = 5 := by
  simp [reg5val, lor_mod_eight, toUInt32_shiftLeft_mod_eight, toUInt32_mod_eight_of_dvd]

/-- Claim C3: for every frequency in [35, 4400] MHz,
`selectOutputDivider` follows the breakpoint table, returns the smallest
divider in {1, 2, 4, 8, 16, 32, 64} whose product with the frequency
reaches 2200 MHz, and that product lies in [2200, 4400), except that at
exactly 4400 MHz the product is the closed upper bound 4400. -/
theorem C3_selectOutputDivider_table (f : ℚ) (h1 : 35 ≤ f) (h2 : f ≤ 4400) :
    (2200 ≤ f → selectOutputDivider f = (1, 0)) ∧
    (1100 ≤ f → f < 2200 → selectOutputDivider f = (2, 1)) ∧
    (550 ≤ f → f < 1100 → selectOutputDivider f = (4, 2)) ∧
    (275 ≤ f → f < 550 → selectOutputDivider f = (8, 3)) ∧
    (137.5 ≤ f → f < 275 → selectOutputDivider f = (16, 4)) ∧
    (68.75 ≤ f → f < 137.5 → selectOutputDivider f = (32, 5)) ∧
    (f < 68.75 → selectOutputDivider f = (64, 6)) ∧
    (selectOutputDivider f).1 ∈ ([1, 2, 4, 8, 16, 32, 64] : List ℚ) ∧
    (∀ e ∈ ([1, 2, 4, 8, 16, 32, 64] : List ℚ),
      2200 ≤ f * e → (selectOutputDivider f).1 ≤ e) ∧
    2200 ≤ f * (selectOutputDivider f).1 ∧
    (f * (selectOutputDivider f).1 < 4400 ∨ (f = 4400 ∧ (selectOutputDivider f).1 = 1)) := by
  refine ⟨?_, ?_, ?_, ?_, ?_, ?_, ?_, ?_, ?_, (vco_bounds f h1 h2).1, ?_⟩
  · intro ha
    unfold selectOutputDivider
    split_ifs <;> first | rfl | (exfalso; linarith)
  · intro ha hb
    unfold selectOutputDivider
    split_ifs <;> first | rfl | (exfalso; linarith)
  · intro ha hb
    unfold selectOutputDivider
    split_ifs <;> first | rfl | (exfalso; linarith)
  · intro ha hb
    unfold selectOutputDivider
    split_ifs <;> first | rfl | (exfalso; linarith)
  · intro ha hb
    unfold selectOutputDivider
    split_ifs <;> first | rfl | (exfalso; linarith)
  · intro ha hb
    unfold selectOutputDivider
    split_ifs <;> first | rfl | (exfalso; linarith)
  · intro ha
    unfold selectOutputDivider
    split_ifs <;> first | rfl | (exfalso; linarith)
  · unfold selectOutputDivider
    split_ifs <;> simp
  · intro e he hfe
    simp only [List.mem_cons, List.not_mem_nil, or_false] at he
    unfold selectOutputDivider
    split_ifs <;> push_neg at * <;>
      rcases he with rfl | rfl | rfl | rfl | rfl | rfl | rfl <;> simp <;> linarith
  · rcases lt_or_eq_of_le h2 with hlt | rfl
    · left
      unfold selectOutputDivider
      split_ifs <;> push_neg at * <;> simp <;> linarith
    · right
      refine ⟨rfl, ?_⟩
      norm_num [selectOutputDivider]

/-- Claim C3, witness at the concrete frequency 1000 MHz. -/
theorem C3_witness :
    (2200 ≤ (1000 : ℚ) → selectOutputDivider 1000 = (1, 0)) ∧
    (1100 ≤ (1000 : ℚ) → (1000 : ℚ) < 2200 → selectOutputDivider 1000 = (2, 1)) ∧
    (550 ≤ (1000 : ℚ) → (1000 : ℚ) < 1100 → selectOutputDivider 1000 = (4, 2)) ∧
    (275 ≤ (1000 : ℚ) → (1000 : ℚ) < 550 → selectOutputDivider 1000 = (8, 3)) ∧
    (137.5 ≤ (1000 : ℚ) → (1000 : ℚ) < 275 → selectOutputDivider 1000 = (16, 4)) ∧
    (68.75 ≤ (1000 : ℚ) → (1000 : ℚ) < 137.5 → selectOutputDivider 1000 = (32, 5)) ∧
    ((1000 : ℚ) < 68.75 → selectOutputDivider 1000 = (64, 6)) ∧
    (selectOutputDivider 1000).1 ∈ ([1, 2, 4, 8, 16, 32, 64] : List ℚ) ∧
    (∀ e ∈ ([1, 2, 4, 8, 16, 32, 64] : List ℚ),
      2200 ≤ (1000 : ℚ) * e → (selectOutputDivider 1000).1 ≤ e) ∧
    2200 ≤ (1000 : ℚ) * (selectOutputDivider 1000).1 ∧
    ((1000 : ℚ) * (selectOutputDivider 1000).1 < 4400 ∨
      ((1000 : ℚ) = 4400 ∧ (selectOutputDivider 1000).1 = 1)) :=
  C3_selectOutputDivider_table 1000 (by norm_num) (by norm_num)

/-- Claim C5, amended (the original claim fails because the code casts
the rounded ratio to `uint16_t` before clamping): whenever the rounded
ratio `round(pfd / c)` is below 2^16, the modulus used by
`updateRegisters` equals `min(round(pfd / c), 4095)`. -/
theorem C5_mod_clamped (f p c : ℚ) (hp : 0 < p) (hc : 0 < c)
    (h : cround (p / c) < 65536) :
    (synthCalc f p c).MOD = min (cround (p / c)).toNat 4095 := by
  rw [synthCalc_MOD]
  simp only [computeMOD, toUInt16]
  split <;> omega

/-- Claim C5, counterexample to the original statement: with PFD 25 MHz
and channel spacing 25/65536 MHz the rounded ratio is exactly 2^16, the
`uint16_t` cast wraps it to 0, and the modulus is 0 instead of the
clamped value 4095. -/
theorem C5_counterexample :
    ((0 : ℚ) < 25 ∧ (0 : ℚ) < 25 / 65536) ∧
    (synthCalc 1000 25 (25 / 65536)).MOD ≠
      min (cround (25 / (25 / 65536))).toNat 4095 := by
  refine ⟨by norm_num, ?_⟩
  rw [synthCalc_MOD]
  norm_num [computeMOD, cround, toUInt16] <;> simp <;> norm_num

/-- Claim C5, witness for the amended theorem at channel spacing 10 kHz. -/
theorem C5_witness :
    (synthCalc 1000 25 (1 / 100)).MOD = min (cround (25 / (1 / 100))).toNat 4095 :=
  C5_mod_clamped 1000 25 (1 / 100) (by norm_num) (by norm_num)
    (by norm_num [cround])

/-- Claim C10, amended (the original claim fails when the channel
spacing exceeds twice the PFD frequency, where `MOD` rounds to 0 and the
carry branch divides by zero): whenever `c ≤ 2·pfd` and
`pfd / c < 65535.5` (so the `uint16_t` cast cannot wrap to 0), the
modulus is nonzero, so in particular the carry-correction division never
divides by zero. -/
theorem C10_mod_nonzero (f p c : ℚ) (h1 : 35 ≤ f) (h2 : f ≤ 4400)
    (hp : 0 < p) (hc : 0 < c) (hlo : c ≤ 2 * p) (hhi : p / c < 131071 / 2) :
    (synthCalc f p c).MOD ≠ 0 := by
  rw [synthCalc_MOD]
  have h0 : (0 : ℚ) ≤ p / c := by positivity
  have hx : (1 / 2 : ℚ) ≤ p / c := (le_div_iff hc).mpr (by linarith)
  have hcr1 : 1 ≤ cround (p / c) := by
    unfold cround
    rw [if_pos h0]
    apply Int.le_floor.mpr
    push_cast
    linarith
  have hcr2 : cround (p / c) < 65536 := by
    unfold cround
    rw [if_pos h0]
    apply Int.floor_lt.mpr
    push_cast
    linarith
  simp only [computeMOD, toUInt16]
  split <;> omega

/-- Claim C10, counterexample to the original statement: at output
frequency 1000 MHz, PFD 25 MHz and channel spacing 60 MHz (a valid
input), `MOD` is 0 while the carry branch condition `N_frac >= MOD`
holds, so the branch executes its division and modulo with divisor 0. -/
theorem C10_counterexample :
    (35 ≤ (1000 : ℚ) ∧ (1000 : ℚ) ≤ 4400 ∧ (0 : ℚ) < 25 ∧ (0 : ℚ) < 60) ∧
    (synthCalc 1000 25 60).MOD ≤ (synthCalc 1000 25 60).N_frac_pre ∧
    (synthCalc 1000 25 60).MOD = 0 := by
  refine ⟨by norm_num, ?_, ?_⟩ <;>
    rw [synthCalc_MOD] <;>
    norm_num [synthCalc_N_frac_pre, computeMOD, nFracRaw, nIntRaw, computeN,
      selectOutputDivider, cround, toUInt16] <;> simp <;> norm_num

/-- Claim C10, witness for the amended theorem at channel spacing 10 kHz. -/
theorem C10_witness : (synthCalc 1000 25 (1 / 100)).MOD ≠ 0 :=
  C10_mod_nonzero 1000 25 (1 / 100) (by norm_num) (by norm_num) (by norm_num)
    (by norm_num) (by norm_num) (by norm_num)

/-- Claim C6: with the default reference configuration (25 MHz,
rCounter 1, no doubler, no divide-by-2, so PFD = 25 MHz), the call
`setFrequency(1000, 0.01)` selects divider 4 with select code 2, gets
VCO 4000 MHz, N_int = 160, MOD = 2500, N_frac = 0, prescaler code 1,
lock-detect precision and function both 1, succeeds, and produces
register word 0 equal to (160 << 15) | (0 << 3) | 0 = 5242880. -/
theorem C6_concrete_scenario :
    (mkADF4351 10).pfdFreqMHz = 25 ∧
    (synthCalc 1000 25 (1 / 100)).outputDivider = 4 ∧
    (synthCalc 1000 25 (1 / 100)).RFdivSel = 2 ∧
    (synthCalc 1000 25 (1 / 100)).vcoFreqMHz = 4000 ∧
    (synthCalc 1000 25 (1 / 100)).N_int = 160 ∧
    (synthCalc 1000 25 (1 / 100)).MOD = 2500 ∧
    (synthCalc 1000 25 (1 / 100)).N_frac = 0 ∧
    (synthCalc 1000 25 (1 / 100)).prescaler = 1 ∧
    (synthCalc 1000 25 (1 / 100)).ldp = 1 ∧
    (synthCalc 1000 25 (1 / 100)).ldf = 1 ∧
    (setFrequency (mkADF4351 10) 1000 (1 / 100)).1 = true ∧
    reg0val (synthCalc 1000 25 (1 / 100)) = 5242880 := by
  refine ⟨by norm_num [mkADF4351], ?_, ?_, ?_, ?_, ?_, ?_, ?_, ?_, ?_, ?_, ?_⟩
  · norm_num [synthCalc, selectOutputDivider]
  · norm_num [synthCalc, selectOutputDivider]
  · norm_num [synthCalc, selectOutputDivider]
  · norm_num [synthCalc, computeMOD, nFracRaw, nIntRaw, computeN, selectOutputDivider,
      cround, toUInt16] <;> simp <;> norm_num
  · norm_num [synthCalc, computeMOD, nFracRaw, nIntRaw, computeN, selectOutputDivider,
      cround, toUInt16] <;> simp <;> norm_num
  · norm_num [synthCalc, computeMOD, nFracRaw, nIntRaw, computeN, selectOutputDivider,
      cround, toUInt16] <;> simp <;> norm_num
  · norm_num [synthCalc, computeMOD, nFracRaw, nIntRaw, computeN, selectOutputDivider,
      cround, toUInt16] <;> simp <;> norm_num
  · norm_num [synthCalc, computeMOD, nFracRaw, nIntRaw, computeN, selectOutputDivider,
      cround, toUInt16] <;> simp <;> norm_num
  · norm_num [synthCalc, computeMOD, nFracRaw, nIntRaw, computeN, selectOutputDivider,
      cround, toUInt16] <;> simp <;> norm_num
  · norm_num [setFrequency, updateRegisters, synthCalc_vco, selectOutputDivider, mkADF4351]
  · norm_num [reg0val, synthCalc, computeMOD, nFracRaw, nIntRaw, computeN,
      selectOutputDivider, cround, toUInt16, toUInt32, Nat.shiftLeft_eq]
      <;> simp <;> norm_num

/-- Claim C7: every successful `setFrequency` call emits exactly six
words to the register sink, in the strict order register 5, 4, 3, 2, 1,
0, and the low three bits of each emitted word equal that register's own
address. -/
theorem C7_emission_order (s : ADF4351) (f c : ℚ)
    (hok : (setFrequency s f c).1 = true) :
    (setFrequency s f c).2.2.length = 6 ∧
    (setFrequency s f c).2.2.map (fun w => w % 8) = [5, 4, 3, 2, 1, 0] := by
  by_cases hf : f < 35 ∨ 4400 < f
  · exfalso
    simp [setFrequency, hf] at hok
  · have hf2 := hf
    push_neg at hf2
    have hu := updateRegisters_true { s with outputFreqMHz := f } c
      (by simpa using hf2.1) (by simpa using hf2.2)
    simp only [setFrequency, if_neg hf]
    rw [hu]
    refine ⟨rfl, ?_⟩
    simp only [buildRegs, List.map]
    rw [reg5val_mod_eight, reg4val_mod_eight, reg3val_mod_eight, reg2val_mod_eight,
      reg1val_mod_eight, reg0val_mod_eight]

/-- Claim C7, witness at a concrete successful call. -/
theorem C7_witness :
    (setFrequency (mkADF4351 10) 1000 1).2.2.length = 6 ∧
    (setFrequency (mkADF4351 10) 1000 1).2.2.map (fun w => w % 8) = [5, 4, 3, 2, 1, 0] :=
  C7_emission_order (mkADF4351 10) 1000 1
    (by norm_num [setFrequency, updateRegisters, synthCalc_vco, selectOutputDivider,
      mkADF4351])
